import Mathlib

/-!
Verification of the Shipment Analytics Engine of `streamlit_app.py`.

The engine is a pandas pipeline over an in-memory shipment table.  We embed it
shallowly: a dataframe is a `List Rec`, a pandas `groupby(...).agg(...)` is an
explicit key-sorted grouping function, dates (`datetime64` at day resolution)
are integer day numbers (days since 1970-01-01, missing dates are `none`), and
the real-valued `Volume in cbm` column is modelled by exact rationals.

Rationals are implemented here as `Frac`, the quotient of integer fractions
`n / d` (`d > 0`) by cross-multiplication — mathematically the rational
numbers, but with all operations kernel-computable so that concrete runs of
the engine can be evaluated by `decide`.
-/

/-- An integer fraction `n / d` with positive denominator. -/
structure PreFrac where
  n : ℤ
  d : ℤ
  pos : 0 < d

/-- Two fractions represent the same rational iff cross-multiplication agrees. -/
def fracRel (x y : PreFrac) : Prop := x.n * y.d = y.n * x.d

instance (x y : PreFrac) : Decidable (fracRel x y) :=
  inferInstanceAs (Decidable (_ = _))

theorem fracRel_refl (x : PreFrac) : fracRel x x := rfl

theorem fracRel_symm {x y : PreFrac} (h : fracRel x y) : fracRel y x := h.symm

theorem fracRel_trans {x y z : PreFrac} (hxy : fracRel x y) (hyz : fracRel y z) :
    fracRel x z := by
  have h1 : x.n * z.d * y.d = z.n * x.d * y.d := by
    have hxy' : x.n * y.d = y.n * x.d := hxy
    have hyz' : y.n * z.d = z.n * y.d := hyz
    linear_combination z.d * hxy' + x.d * hyz'
  exact mul_right_cancel₀ (ne_of_gt y.pos) h1

instance fracSetoid : Setoid PreFrac :=
  ⟨fracRel, ⟨fracRel_refl, fracRel_symm, fracRel_trans⟩⟩

instance (x y : PreFrac) : Decidable (x ≈ y) :=
  inferInstanceAs (Decidable (fracRel x y))

/-- The rational numbers, as the quotient of integer fractions. -/
def Frac := Quotient fracSetoid

namespace PreFrac

def add (x y : PreFrac) : PreFrac :=
  ⟨x.n * y.d + y.n * x.d, x.d * y.d, mul_pos x.pos y.pos⟩

def mul (x y : PreFrac) : PreFrac :=
  ⟨x.n * y.n, x.d * y.d, mul_pos x.pos y.pos⟩

def neg (x : PreFrac) : PreFrac := ⟨-x.n, x.d, x.pos⟩

def inv (x : PreFrac) : PreFrac :=
  if h : 0 < x.n then ⟨x.d, x.n, h⟩
  else if h' : x.n < 0 then ⟨-x.d, -x.n, by omega⟩
  else ⟨0, 1, one_pos⟩

end PreFrac

theorem frac_add_wd (a b a' b' : PreFrac) (ha : fracRel a a') (hb : fracRel b b') :
    fracRel (a.add b) (a'.add b') := by
  have ha' : a.n * a'.d = a'.n * a.d := ha
  have hb' : b.n * b'.d = b'.n * b.d := hb
  show (a.n * b.d + b.n * a.d) * (a'.d * b'.d) = (a'.n * b'.d + b'.n * a'.d) * (a.d * b.d)
  linear_combination (b.d * b'.d) * ha' + (a.d * a'.d) * hb'

theorem frac_mul_wd (a b a' b' : PreFrac) (ha : fracRel a a') (hb : fracRel b b') :
    fracRel (a.mul b) (a'.mul b') := by
  have ha' : a.n * a'.d = a'.n * a.d := ha
  have hb' : b.n * b'.d = b'.n * b.d := hb
  show a.n * b.n * (a'.d * b'.d) = a'.n * b'.n * (a.d * b.d)
  linear_combination (b.n * b'.d) * ha' + (a'.n * a.d) * hb'

theorem frac_neg_wd (a a' : PreFrac) (ha : fracRel a a') : fracRel a.neg a'.neg := by
  have ha' : a.n * a'.d = a'.n * a.d := ha
  show -a.n * a'.d = -a'.n * a.d
  linear_combination -ha'

theorem frac_sign_pos {a a' : PreFrac} (ha : fracRel a a') (h : 0 < a.n) : 0 < a'.n := by
  have ha' : a.n * a'.d = a'.n * a.d := ha
  nlinarith [a.pos, a'.pos]

theorem frac_sign_neg {a a' : PreFrac} (ha : fracRel a a') (h : a.n < 0) : a'.n < 0 := by
  have ha' : a.n * a'.d = a'.n * a.d := ha
  nlinarith [a.pos, a'.pos]

theorem frac_inv_wd (a a' : PreFrac) (ha : fracRel a a') : fracRel a.inv a'.inv := by
  have ha' : a.n * a'.d = a'.n * a.d := ha
  unfold PreFrac.inv
  rcases lt_trichotomy a.n 0 with h | h | h
  · have h2 : a'.n < 0 := frac_sign_neg ha h
    rw [dif_neg (by omega : ¬ (0 < a.n)), dif_pos h,
        dif_neg (by omega : ¬ (0 < a'.n)), dif_pos h2]
    show -a.d * -a'.n = -a'.d * -a.n
    linear_combination -ha'
  · have h2 : ¬ (0 < a'.n) := fun hp => by
      have := frac_sign_pos (fracRel_symm ha) hp; omega
    have h3 : ¬ (a'.n < 0) := fun hn => by
      have := frac_sign_neg (fracRel_symm ha) hn; omega
    rw [dif_neg (by omega : ¬ (0 < a.n)), dif_neg (by omega : ¬ (a.n < 0)),
        dif_neg h2, dif_neg h3]
    exact rfl
  · have h2 : 0 < a'.n := frac_sign_pos ha h
    rw [dif_pos h, dif_pos h2]
    show a.d * a'.n = a'.d * a.n
    linear_combination -ha'

theorem frac_le_mono {u v u' v' : PreFrac} (hu : fracRel u u') (hv : fracRel v v')
    (h : u.n * v.d ≤ v.n * u.d) : u'.n * v'.d ≤ v'.n * u'.d := by
  have hu' : u.n * u'.d = u'.n * u.d := hu
  have hv' : v.n * v'.d = v'.n * v.d := hv
  have hpos : (0:ℤ) < u.d * v.d := mul_pos u.pos v.pos
  rw [← mul_le_mul_right hpos]
  have e1 : u'.n * v'.d * (u.d * v.d) = u.n * v.d * (u'.d * v'.d) := by
    linear_combination (-(v'.d * v.d)) * hu'
  have e2 : v'.n * u'.d * (u.d * v.d) = v.n * u.d * (u'.d * v'.d) := by
    linear_combination (-(u'.d * u.d)) * hv'
  rw [e1, e2]
  exact mul_le_mul_of_nonneg_right h (mul_pos u'.pos v'.pos).le

theorem frac_lt_mono {u v u' v' : PreFrac} (hu : fracRel u u') (hv : fracRel v v')
    (h : u.n * v.d < v.n * u.d) : u'.n * v'.d < v'.n * u'.d := by
  have hu' : u.n * u'.d = u'.n * u.d := hu
  have hv' : v.n * v'.d = v'.n * v.d := hv
  have hpos : (0:ℤ) < u.d * v.d := mul_pos u.pos v.pos
  rw [← mul_lt_mul_right hpos]
  have e1 : u'.n * v'.d * (u.d * v.d) = u.n * v.d * (u'.d * v'.d) := by
    linear_combination (-(v'.d * v.d)) * hu'
  have e2 : v'.n * u'.d * (u.d * v.d) = v.n * u.d * (u'.d * v'.d) := by
    linear_combination (-(u'.d * u.d)) * hv'
  rw [e1, e2]
  exact mul_lt_mul_of_pos_right h (mul_pos u'.pos v'.pos)

namespace Frac

def mk (x : PreFrac) : Frac := Quotient.mk fracSetoid x

def ofInt (n : ℤ) : Frac := mk ⟨n, 1, one_pos⟩

/-- `mkq n d` is the rational `n / d` (for a positive literal denominator);
used to write decimal constants such as `17.999 = mkq 17999 1000`. -/
def mkq (n d : ℤ) : Frac := if h : 0 < d then mk ⟨n, d, h⟩ else ofInt 0

def add : Frac → Frac → Frac :=
  Quotient.lift₂ (fun x y => mk (x.add y))
    (fun a b a' b' ha hb => Quotient.sound (frac_add_wd a b a' b' ha hb))

def mul : Frac → Frac → Frac :=
  Quotient.lift₂ (fun x y => mk (x.mul y))
    (fun a b a' b' ha hb => Quotient.sound (frac_mul_wd a b a' b' ha hb))

def neg : Frac → Frac :=
  Quotient.lift (fun x => mk x.neg) (fun a a' ha => Quotient.sound (frac_neg_wd a a' ha))

def inv : Frac → Frac :=
  Quotient.lift (fun x => mk x.inv) (fun a a' ha => Quotient.sound (frac_inv_wd a a' ha))

def ble : Frac → Frac → Bool :=
  Quotient.lift₂ (fun x y => decide (x.n * y.d ≤ y.n * x.d))
    (fun a b a' b' ha hb => by
      apply decide_eq_decide.mpr
      exact ⟨frac_le_mono ha hb, frac_le_mono (fracRel_symm ha) (fracRel_symm hb)⟩)

def blt : Frac → Frac → Bool :=
  Quotient.lift₂ (fun x y => decide (x.n * y.d < y.n * x.d))
    (fun a b a' b' ha hb => by
      apply decide_eq_decide.mpr
      exact ⟨frac_lt_mono ha hb, frac_lt_mono (fracRel_symm ha) (fracRel_symm hb)⟩)

def beq : Frac → Frac → Bool :=
  Quotient.lift₂ (fun x y => decide (fracRel x y))
    (fun a b a' b' ha hb => by
      apply decide_eq_decide.mpr
      exact ⟨fun h => fracRel_trans (fracRel_trans (fracRel_symm ha) h) hb,
             fun h => fracRel_trans (fracRel_trans ha h) (fracRel_symm hb)⟩)

instance : Add Frac := ⟨Frac.add⟩

instance : Mul Frac := ⟨Frac.mul⟩

instance : Neg Frac := ⟨Frac.neg⟩

instance : Div Frac := ⟨fun a b => Frac.mul a (Frac.inv b)⟩

instance : Zero Frac := ⟨Frac.ofInt 0⟩

instance : One Frac := ⟨Frac.ofInt 1⟩

instance (n : ℕ) : OfNat Frac n := ⟨Frac.ofInt n⟩

instance : LE Frac := ⟨fun a b => Frac.ble a b = true⟩

instance : LT Frac := ⟨fun a b => Frac.blt a b = true⟩

instance : DecidableRel (fun a b : Frac => a ≤ b) := fun _ _ =>
  inferInstanceAs (Decidable (_ = true))

instance : DecidableRel (fun a b : Frac => a < b) := fun _ _ =>
  inferInstanceAs (Decidable (_ = true))

theorem beq_iff {a b : Frac} : Frac.beq a b = true ↔ a = b := by
  refine Quotient.inductionOn₂ a b ?_
  intro x y
  constructor
  · intro h
    exact Quotient.sound (of_decide_eq_true h)
  · intro h
    exact decide_eq_true (Quotient.exact h)

instance : DecidableEq Frac := fun a b => decidable_of_iff _ beq_iff

theorem add_assoc' (a b c : Frac) : a + b + c = a + (b + c) := by
  refine Quotient.inductionOn₃ a b c ?_
  intro x y z
  apply Quotient.sound
  show ((x.n * y.d + y.n * x.d) * z.d + z.n * (x.d * y.d)) * (x.d * (y.d * z.d)) =
       (x.n * (y.d * z.d) + (y.n * z.d + z.n * y.d) * x.d) * (x.d * y.d * z.d)
  ring

theorem add_comm' (a b : Frac) : a + b = b + a := by
  refine Quotient.inductionOn₂ a b ?_
  intro x y
  apply Quotient.sound
  show (x.n * y.d + y.n * x.d) * (y.d * x.d) = (y.n * x.d + x.n * y.d) * (x.d * y.d)
  ring

theorem zero_add' (a : Frac) : 0 + a = a := by
  refine Quotient.inductionOn a ?_
  intro x
  apply Quotient.sound
  show (0 * x.d + x.n * 1) * x.d = x.n * (1 * x.d)
  ring

theorem add_zero' (a : Frac) : a + 0 = a := by
  refine Quotient.inductionOn a ?_
  intro x
  apply Quotient.sound
  show (x.n * 1 + 0 * x.d) * x.d = x.n * (x.d * 1)
  ring

instance : AddCommMonoid Frac where
  add_assoc := add_assoc'
  zero_add := zero_add'
  add_zero := add_zero'
  add_comm := add_comm'
  nsmul := nsmulRec

theorem ble_total (a b : Frac) : Frac.ble a b = true ∨ Frac.ble b a = true := by
  refine Quotient.inductionOn₂ a b ?_
  intro x y
  by_cases h : x.n * y.d ≤ y.n * x.d
  · exact Or.inl (decide_eq_true h)
  · exact Or.inr (decide_eq_true (le_of_lt (lt_of_not_le h)))

theorem ble_trans {a b c : Frac} (hab : Frac.ble a b = true) (hbc : Frac.ble b c = true) :
    Frac.ble a c = true := by
  revert hab hbc
  refine Quotient.inductionOn₃ a b c ?_
  intro x y z hxy hyz
  have hxy' : x.n * y.d ≤ y.n * x.d := of_decide_eq_true hxy
  have hyz' : y.n * z.d ≤ z.n * y.d := of_decide_eq_true hyz
  apply decide_eq_true
  have h1 : x.n * z.d * y.d ≤ z.n * x.d * y.d := by nlinarith [x.pos, y.pos, z.pos]
  exact le_of_mul_le_mul_right h1 y.pos

theorem not_ble {a b : Frac} : Frac.ble a b = false ↔ Frac.blt b a = true := by
  refine Quotient.inductionOn₂ a b ?_
  intro x y
  constructor
  · intro h
    have h' : ¬ (x.n * y.d ≤ y.n * x.d) := of_decide_eq_false h
    exact decide_eq_true (lt_of_not_le h')
  · intro h
    have h' : y.n * x.d < x.n * y.d := of_decide_eq_true h
    exact decide_eq_false (not_le_of_lt h')

theorem le_def {a b : Frac} : a ≤ b ↔ Frac.ble a b = true := Iff.rfl

theorem lt_def {a b : Frac} : a < b ↔ Frac.blt a b = true := Iff.rfl

theorem not_le_iff_lt {a b : Frac} : ¬ a ≤ b ↔ b < a := by
  rw [le_def, lt_def, ← not_ble]
  exact ⟨Bool.eq_false_iff.mpr ∘ fun h => h, fun h => by simp [h]⟩

end Frac

/-! ## Transport-free decidability of equality on containers

The auto-derived `DecidableEq` instances for containers rewrite along the
component equality proof (`h ▸ isTrue _`), which the kernel can only reduce
when the two components are definitionally equal.  Two equal `Frac`s are in
general distinct representatives, so we install instances that keep
`isTrue`/`isFalse` in value position instead. -/

instance optionDecEqSafe {α : Type} [DecidableEq α] : DecidableEq (Option α) := fun a b =>
  match a, b with
  | none, none => isTrue rfl
  | none, some _ => isFalse (fun h => Option.noConfusion h)
  | some _, none => isFalse (fun h => Option.noConfusion h)
  | some x, some y =>
    if h : x = y then isTrue (congrArg some h)
    else isFalse (fun hc => h (Option.some.inj hc))

instance prodDecEqSafe {α β : Type} [DecidableEq α] [DecidableEq β] :
    DecidableEq (α × β) := fun a b =>
  if h1 : a.1 = b.1 then
    if h2 : a.2 = b.2 then isTrue (Prod.ext h1 h2)
    else isFalse (fun hc => h2 (congrArg Prod.snd hc))
  else isFalse (fun hc => h1 (congrArg Prod.fst hc))

/-! ## String ordering and substring containment

`groupby` sorts its group keys (pandas `sort=True` default); object columns are
compared by Python string order, i.e. lexicographically by code point.
`Series.str.contains(pat)` with a plain-word pattern is substring containment.
-/

def charListLe : List Char → List Char → Bool
  | [], _ => true
  | _ :: _, [] => false
  | a :: as, b :: bs =>
    if a.toNat < b.toNat then true
    else if b.toNat < a.toNat then false
    else charListLe as bs

def strLe (a b : String) : Bool := charListLe a.data b.data

def lexLe {α β : Type} [DecidableEq α] (leA : α → α → Bool) (leB : β → β → Bool)
    (a b : α × β) : Bool :=
  if a.1 = b.1 then leB a.2 b.2 else leA a.1 b.1

def natLeB (a b : ℕ) : Bool := decide (a ≤ b)

def intLeB (a b : ℤ) : Bool := decide (a ≤ b)

def le2 : String × String → String × String → Bool := lexLe strLe strLe

def le3 : String × String × String → String × String × String → Bool :=
  lexLe strLe le2

def leW3 : String × String × ℕ → String × String × ℕ → Bool :=
  lexLe strLe (lexLe strLe natLeB)

def le4 : String × String × ℕ × String → String × String × ℕ × String → Bool :=
  lexLe strLe (lexLe strLe (lexLe natLeB strLe))

def leMonth : ℤ × ℕ → ℤ × ℕ → Bool := lexLe intLeB natLeB

def charListIsPre : List Char → List Char → Bool
  | [], _ => true
  | _ :: _, [] => false
  | a :: as, b :: bs => decide (a = b) && charListIsPre as bs

def charListSub (pat : List Char) : List Char → Bool
  | [] => pat.isEmpty
  | c :: cs => charListIsPre pat (c :: cs) || charListSub pat cs

/-- `Series.str.contains(pat, na=False)` for a plain-word pattern. -/
def strContainsSub (s pat : String) : Bool := charListSub pat.data s.data

/-! ## Calendar arithmetic

`datetime64` dates are modelled as integer day numbers (days since
1970-01-01).  `civilFromDays` / `daysFromCivil` are the standard civil
calendar conversions; `isoWeekOfDay` is `Series.dt.isocalendar().week`
(ISO-8601 week number, the week-year itself is discarded exactly as in the
source), and `monthOfDay` is `Series.dt.to_period('M')`. -/

def civilFromDays (z : ℤ) : ℤ × ℕ × ℕ :=
  let z' := z + 719468
  let era := Int.fdiv z' 146097
  let doe := (z' - era * 146097).toNat
  let yoe := (doe - doe / 1460 + doe / 36524 - doe / 146096) / 365
  let y := (yoe : ℤ) + era * 400
  let doy := doe - (365 * yoe + yoe / 4 - yoe / 100)
  let mp := (5 * doy + 2) / 153
  let d := doy - (153 * mp + 2) / 5 + 1
  let m := if mp < 10 then mp + 3 else mp - 9
  (if m ≤ 2 then y + 1 else y, m, d)

def daysFromCivil (y : ℤ) (m d : ℕ) : ℤ :=
  let y' := if m ≤ 2 then y - 1 else y
  let era := Int.fdiv y' 400
  let yoe := (y' - era * 400).toNat
  let mp := if 3 ≤ m then m - 3 else m + 9
  let doy := (153 * mp + 2) / 5 + d - 1
  let doe := yoe * 365 + yoe / 4 - yoe / 100 + doy
  era * 146097 + (doe : ℤ) - 719468

/-- ISO-8601 week number of a day: the week containing the day's Thursday,
counted from the first Thursday of that Thursday's calendar year. -/
def isoWeekOfDay (day : ℤ) : ℕ :=
  let wd := (day + 3).emod 7
  let thu := day - wd + 3
  let isoYear := (civilFromDays thu).1
  let jan1 := daysFromCivil isoYear 1 1
  (thu - jan1).toNat / 7 + 1

/-- `dt.to_period('M')`: the (year, month) bucket of a day. -/
def monthOfDay (day : ℤ) : ℤ × ℕ :=
  let c := civilFromDays day
  (c.1, c.2.1)

/-! ## The shipment dataframe

One row of the (already filtered) dataframe.  `ETS`/`ETA`/`ATA` are parsed
dates (`none` = `NaT`); `week`, `month` and `transitDays` model the derived
columns the script assigns to the shared dataframe (initially absent). -/

structure Rec where
  POL : String
  POD : String
  ETS : Option ℤ
  ETA : Option ℤ
  ATA : Option ℤ
  shipmentType : String
  movement : String
  volume : Frac
  week : Option ℕ := none
  month : Option (ℤ × ℕ) := none
  transitDays : Option ℤ := none
deriving DecidableEq

/-- `df['Week'] = df['ETS'].dt.isocalendar().week` (lines 89 and 173);
`NaT` gives a missing week. -/
def assignWeek (r : Rec) : Rec := { r with week := r.ETS.map isoWeekOfDay }

def withWeek (df : List Rec) : List Rec := df.map assignWeek

/-- `df['Month'] = df['ETS'].dt.to_period('M')` (line 220). -/
def assignMonth (r : Rec) : Rec := { r with month := r.ETS.map monthOfDay }

def withMonth (df : List Rec) : List Rec := df.map assignMonth

/-- `df['Transit Days'] = (df['ATA'] - df['ETS']).dt.days` (line 247);
`NaT` on either side gives a missing value. -/
def assignTransit (r : Rec) : Rec :=
  { r with transitDays :=
      match r.ATA, r.ETS with
      | some a, some e => some (a - e)
      | _, _ => none }

def withTransit (df : List Rec) : List Rec := df.map assignTransit

/-! ## groupby

`l.groupby(key)`: the distinct keys in ascending order (pandas sorts group
keys by default), each paired with the rows having that key, in their
original order.  Rows whose key is missing are excluded by the callers
(pandas `dropna=True`). -/

def groupBy {α K : Type} [DecidableEq K] (key : α → K) (le : K → K → Bool)
    (l : List α) : List (K × List α) :=
  (List.insertionSort (fun a b => le a b = true) ((l.map key).dedup)).map
    (fun k => (k, l.filter (fun r => decide (key r = k))))

/-! ## Consolidation tab (lines 88–202) -/

def hasWeek (r : Rec) : Bool := r.week.isSome

def key4 (r : Rec) : String × String × ℕ × String :=
  (r.POL, r.POD, r.week.getD 0, r.shipmentType)

/-- Line 90: `df.groupby(['POL','POD','Week','Shipment Type'])['Volume in cbm'].sum()`. -/
def lane_analysis_of (df : List Rec) : List ((String × String × ℕ × String) × Frac) :=
  (groupBy key4 le4 (df.filter hasWeek)).map
    (fun g => (g.1, (g.2.map Rec.volume).sum))

def lane_analysis (df : List Rec) : List ((String × String × ℕ × String) × Frac) :=
  lane_analysis_of (withWeek df)

structure LaneRow where
  POL : String
  POD : String
  shipmentType : String
  avgWeeklyVolume : Frac
  weeksWithShipments : ℕ

instance : DecidableEq LaneRow := fun a b =>
  decidable_of_iff
    (a.POL = b.POL ∧ a.POD = b.POD ∧ a.shipmentType = b.shipmentType ∧
      a.avgWeeklyVolume = b.avgWeeklyVolume ∧
      a.weeksWithShipments = b.weeksWithShipments)
    (by cases a; cases b; simp [LaneRow.mk.injEq])

def key3of (k : String × String × ℕ × String) : String × String × String :=
  (k.1, k.2.1, k.2.2.2)

/-- Lines 93–98: group `lane_analysis` by `(POL, POD, Shipment Type)` and take
the `mean` and `count` of the weekly sums. -/
def lane_summary_of (df : List Rec) : List LaneRow :=
  (groupBy (fun kv => key3of kv.1) le3 (lane_analysis_of df)).map
    (fun g =>
      { POL := g.1.1, POD := g.1.2.1, shipmentType := g.1.2.2,
        avgWeeklyVolume := (g.2.map Prod.snd).sum / Frac.ofInt g.2.length,
        weeksWithShipments := g.2.length })

def lane_summary (df : List Rec) : List LaneRow := lane_summary_of (withWeek df)

/-- Lines 101–103: `Shipment Type == 'Carriers LCL'` and `Avg Weekly Volume >= 18`. -/
def consolPred (r : LaneRow) : Bool :=
  decide (r.shipmentType = "Carriers LCL") && Frac.ble 18 r.avgWeeklyVolume

/-- Lines 107–109: `Shipment Type == 'LCL'` and `Avg Weekly Volume < 18`. -/
def coloadPred (r : LaneRow) : Bool :=
  decide (r.shipmentType = "LCL") && Frac.blt r.avgWeeklyVolume 18

/-- `sort_values(col, ascending=False)`: pandas `nargsort` argsorts ascending
(stable on small arrays, where numpy's quicksort is insertion sort) and then
reverses the indexer, so rows with equal keys come out in reversed order. -/
def sort_values_desc {α : Type} (val : α → Frac) (l : List α) : List α :=
  (List.insertionSort (fun a b => Frac.ble (val a) (val b) = true) l).reverse

def consolidation_opportunities (df : List Rec) : List LaneRow :=
  sort_values_desc LaneRow.avgWeeklyVolume ((lane_summary df).filter consolPred)

def coload_opportunities (df : List Rec) : List LaneRow :=
  sort_values_desc LaneRow.avgWeeklyVolume ((lane_summary df).filter coloadPred)

/-- Lines 153–156. -/
def total_volume_impact (df : List Rec) : Frac :=
  ((consolidation_opportunities df).map LaneRow.avgWeeklyVolume).sum +
  ((coload_opportunities df).map LaneRow.avgWeeklyVolume).sum

/-- Line 160: `df.groupby('Shipment Type')['Volume in cbm'].agg(['sum','count'])`. -/
def consol_data_of (df : List Rec) : List (String × Frac × ℕ) :=
  (groupBy Rec.shipmentType strLe df).map
    (fun g => (g.1, (g.2.map Rec.volume).sum, g.2.length))

def consol_data (df : List Rec) : List (String × Frac × ℕ) :=
  consol_data_of (withWeek df)

def isLCL (r : Rec) : Bool := decide (r.shipmentType = "LCL")

def keyW (r : Rec) : String × String × ℕ := (r.POL, r.POD, r.week.getD 0)

/-- Lines 177–179: the container-sizing lambda. -/
def container_label (x : Frac) : String :=
  if 45 ≤ x then "40ft Container"
  else if 18 ≤ x then "20ft Container"
  else "Combine Shipments"

structure WeeklyRow where
  POL : String
  POD : String
  week : ℕ
  volume : Frac
  opportunity : String

instance : DecidableEq WeeklyRow := fun a b =>
  decidable_of_iff
    (a.POL = b.POL ∧ a.POD = b.POD ∧ a.week = b.week ∧ a.volume = b.volume ∧
      a.opportunity = b.opportunity)
    (by cases a; cases b; simp [WeeklyRow.mk.injEq])

/-- Lines 173–179: LCL rows grouped by `(POL, POD, Week)`, summed, labelled. -/
def weekly_vol_of (df : List Rec) : List WeeklyRow :=
  (groupBy keyW leW3 ((df.filter isLCL).filter hasWeek)).map
    (fun g =>
      let v := (g.2.map Rec.volume).sum
      { POL := g.1.1, POD := g.1.2.1, week := g.1.2.2,
        volume := v, opportunity := container_label v })

def weekly_vol (df : List Rec) : List WeeklyRow := weekly_vol_of (withWeek df)

/-- Line 195. -/
def total_volume (df : List Rec) : Frac := ((weekly_vol df).map WeeklyRow.volume).sum

/-- Line 198. -/
def potential_20ft (df : List Rec) : ℕ :=
  ((weekly_vol df).filter (fun w => Frac.ble 18 w.volume)).length

/-- Line 201. -/
def potential_40ft (df : List Rec) : ℕ :=
  ((weekly_vol df).filter (fun w => Frac.ble 45 w.volume)).length

/-! ## Movement tab (lines 204–241) -/

/-- Line 208: LCL rows grouped by `Movement`, `agg(['sum','count'])`. -/
def movement_data_of (df : List Rec) : List (String × Frac × ℕ) :=
  (groupBy Rec.movement strLe (df.filter isLCL)).map
    (fun g => (g.1, (g.2.map Rec.volume).sum, g.2.length))

def movement_data (df : List Rec) : List (String × Frac × ℕ) :=
  movement_data_of df

def hasMonth (r : Rec) : Bool := r.month.isSome

def keyM (r : Rec) : ℤ × ℕ := r.month.getD (0, 0)

/-- Lines 220–222: LCL rows grouped by `Month`, `agg(['sum','count'])`. -/
def monthly_util_of (df : List Rec) : List ((ℤ × ℕ) × Frac × ℕ) :=
  (groupBy keyM leMonth ((df.filter isLCL).filter hasMonth)).map
    (fun g => (g.1, (g.2.map Rec.volume).sum, g.2.length))

def monthly_util (df : List Rec) : List ((ℤ × ℕ) × Frac × ℕ) :=
  monthly_util_of (withMonth df)

def movement_total (df : List Rec) : Frac :=
  ((movement_data df).map (fun g => g.2.1)).sum

/-- Lines 235–237: `movement_data[contains('Gateway')]['sum'].sum() /
movement_data['sum'].sum() * 100`.  The volumes are float64 in the source:
when the total is `0` the division produces `NaN` (or `±inf`), which flows
straight into presentation as `"nan%"`; that undefined float is modelled as
`none`. -/
def gateway_pct (df : List Rec) : Option Frac :=
  if movement_total df = 0 then none
  else some (((((movement_data df).filter
      (fun g => strContainsSub g.1 "Gateway")).map (fun g => g.2.1)).sum /
        movement_total df) * 100)

/-- Lines 239–241: same with substring `'CFS'`. -/
def cfs_pct (df : List Rec) : Option Frac :=
  if movement_total df = 0 then none
  else some (((((movement_data df).filter
      (fun g => strContainsSub g.1 "CFS")).map (fun g => g.2.1)).sum /
        movement_total df) * 100)

/-! ## Transit tab (lines 243–283) -/

def listMinI : List ℤ → Option ℤ
  | [] => none
  | a :: t => some (t.foldl Min.min a)

def listMaxI : List ℤ → Option ℤ
  | [] => none
  | a :: t => some (t.foldl Max.max a)

/-- pandas `mean` skips missing values; an all-missing group gives `NaN`
(modelled `none`). -/
def meanI (l : List ℤ) : Option Frac :=
  if l = [] then none else some (Frac.ofInt l.sum / Frac.ofInt l.length)

structure TransitRow where
  POL : String
  POD : String
  mean : Option Frac
  min : Option ℤ
  max : Option ℤ

instance : DecidableEq TransitRow := fun a b =>
  decidable_of_iff
    (a.POL = b.POL ∧ a.POD = b.POD ∧ a.mean = b.mean ∧ a.min = b.min ∧
      a.max = b.max)
    (by cases a; cases b; simp [TransitRow.mk.injEq])

/-- Line 260: `df.groupby(['POL','POD'])['Transit Days'].agg(['mean','min','max'])`;
the aggregations skip rows whose transit duration is undefined. -/
def transit_gap_of (df : List Rec) : List TransitRow :=
  (groupBy (fun r => (r.POL, r.POD)) le2 df).map
    (fun g =>
      let vs := g.2.filterMap Rec.transitDays
      { POL := g.1.1, POD := g.1.2,
        mean := meanI vs, min := listMinI vs, max := listMaxI vs })

def transit_gap (df : List Rec) : List TransitRow :=
  transit_gap_of (withTransit df)

/-- Line 276. -/
def avg_transit (df : List Rec) : Option Frac :=
  meanI ((withTransit df).filterMap Rec.transitDays)

/-- Line 279. -/
def min_transit (df : List Rec) : Option ℤ :=
  listMinI ((withTransit df).filterMap Rec.transitDays)

/-- Line 282. -/
def max_transit (df : List Rec) : Option ℤ :=
  listMaxI ((withTransit df).filterMap Rec.transitDays)

/-! ## The full engine run

`engineRun` is `main`'s analytics pipeline after filtering: the sequence of
in-place column assignments and aggregations of lines 88–283, threaded
through the shared mutable dataframe.  It returns every table and scalar
metric handed to the presentation layer, together with the final state of
the dataframe.  `date_range_type` is the sidebar granularity selection
(line 57), accepted but never read by any computation. -/

structure EngineOut where
  laneSummary : List LaneRow
  consolidationOpportunities : List LaneRow
  coloadOpportunities : List LaneRow
  nConsolidation : ℕ
  nCoload : ℕ
  totalVolumeImpact : Frac
  consolData : List (String × Frac × ℕ)
  weeklyVol : List WeeklyRow
  totalVolume : Frac
  potential20ft : ℕ
  potential40ft : ℕ
  movementData : List (String × Frac × ℕ)
  monthlyUtil : List ((ℤ × ℕ) × Frac × ℕ)
  gatewayPct : Option Frac
  cfsPct : Option Frac
  transitGap : List TransitRow
  avgTransit : Option Frac
  minTransit : Option ℤ
  maxTransit : Option ℤ

def pctOf (md : List (String × Frac × ℕ)) (pat : String) : Option Frac :=
  let total := (md.map (fun g => g.2.1)).sum
  if total = 0 then none
  else some ((((md.filter (fun g => strContainsSub g.1 pat)).map
      (fun g => g.2.1)).sum / total) * 100)

def engineRun (date_range_type : String) (df : List Rec) : EngineOut × List Rec :=
  ({ laneSummary := lane_summary_of (withWeek df)
     consolidationOpportunities := sort_values_desc LaneRow.avgWeeklyVolume
       ((lane_summary_of (withWeek df)).filter consolPred)
     coloadOpportunities := sort_values_desc LaneRow.avgWeeklyVolume
       ((lane_summary_of (withWeek df)).filter coloadPred)
     nConsolidation := (sort_values_desc LaneRow.avgWeeklyVolume
       ((lane_summary_of (withWeek df)).filter consolPred)).length
     nCoload := (sort_values_desc LaneRow.avgWeeklyVolume
       ((lane_summary_of (withWeek df)).filter coloadPred)).length
     totalVolumeImpact :=
       ((sort_values_desc LaneRow.avgWeeklyVolume
         ((lane_summary_of (withWeek df)).filter consolPred)).map
           LaneRow.avgWeeklyVolume).sum +
       ((sort_values_desc LaneRow.avgWeeklyVolume
         ((lane_summary_of (withWeek df)).filter coloadPred)).map
           LaneRow.avgWeeklyVolume).sum
     consolData := consol_data_of (withWeek df)
     weeklyVol := weekly_vol_of (withWeek (withWeek df))
     totalVolume := ((weekly_vol_of (withWeek (withWeek df))).map
       WeeklyRow.volume).sum
     potential20ft := ((weekly_vol_of (withWeek (withWeek df))).filter
       (fun w => Frac.ble 18 w.volume)).length
     potential40ft := ((weekly_vol_of (withWeek (withWeek df))).filter
       (fun w => Frac.ble 45 w.volume)).length
     movementData := movement_data_of (withWeek (withWeek df))
     monthlyUtil := monthly_util_of (withMonth (withWeek (withWeek df)))
     gatewayPct := pctOf (movement_data_of (withWeek (withWeek df))) "Gateway"
     cfsPct := pctOf (movement_data_of (withWeek (withWeek df))) "CFS"
     transitGap := transit_gap_of (withTransit (withMonth (withWeek (withWeek df))))
     avgTransit := meanI ((withTransit (withMonth (withWeek
       (withWeek df)))).filterMap Rec.transitDays)
     minTransit := listMinI ((withTransit (withMonth (withWeek
       (withWeek df)))).filterMap Rec.transitDays)
     maxTransit := listMaxI ((withTransit (withMonth (withWeek
       (withWeek df)))).filterMap Rec.transitDays) },
   withTransit (withMonth (withWeek (withWeek df))))

/-! ## Order helper lemmas for `Frac` -/

theorem Frac.le_of_lt {a b : Frac} (h : a < b) : a ≤ b := by
  revert h
  refine Quotient.inductionOn₂ a b ?_
  intro x y h
  have h' : decide (x.n * y.d < y.n * x.d) = true := h
  show decide (x.n * y.d ≤ y.n * x.d) = true
  exact decide_eq_true (of_decide_eq_true h').le

theorem Frac.le_trans {a b c : Frac} (hab : a ≤ b) (hbc : b ≤ c) : a ≤ c :=
  Frac.ble_trans hab hbc

theorem mem_sort_values_desc {α : Type} (val : α → Frac) (l : List α) (r : α) :
    r ∈ sort_values_desc val l ↔ r ∈ l := by
  unfold sort_values_desc
  rw [List.mem_reverse]
  exact (List.perm_insertionSort _ l).mem_iff

/-- Case analysis of the container-sizing lambda (lines 177–179). -/
theorem container_label_iff (x : Frac) :
    (container_label x = "40ft Container" ↔ 45 ≤ x) ∧
    (container_label x = "20ft Container" ↔ 18 ≤ x ∧ x < 45) ∧
    (container_label x = "Combine Shipments" ↔ x < 18) := by
  unfold container_label
  by_cases h45 : (45 : Frac) ≤ x
  · rw [if_pos h45]
    have hn45 : ¬ x < 45 := fun hlt =>
      (Frac.not_le_iff_lt.mpr hlt) h45
    have hn18 : ¬ x < 18 := fun hlt =>
      absurd (Frac.le_trans h45 (Frac.le_of_lt hlt)) (by decide)
    refine ⟨⟨fun _ => h45, fun _ => rfl⟩, ?_, ?_⟩
    · exact ⟨fun hs => absurd hs (by decide), fun hc => absurd hc.2 hn45⟩
    · exact ⟨fun hs => absurd hs (by decide), fun hc => absurd hc hn18⟩
  · rw [if_neg h45]
    have hlt45 : x < 45 := Frac.not_le_iff_lt.mp h45
    by_cases h18 : (18 : Frac) ≤ x
    · rw [if_pos h18]
      have hn18 : ¬ x < 18 := fun hlt => (Frac.not_le_iff_lt.mpr hlt) h18
      refine ⟨⟨fun hs => absurd hs (by decide), fun hc => absurd hc h45⟩, ?_, ?_⟩
      · exact ⟨fun _ => ⟨h18, hlt45⟩, fun _ => rfl⟩
      · exact ⟨fun hs => absurd hs (by decide), fun hc => absurd hc hn18⟩
    · rw [if_neg h18]
      have hlt18 : x < 18 := Frac.not_le_iff_lt.mp h18
      refine ⟨⟨fun hs => absurd hs (by decide), fun hc => absurd hc h45⟩, ?_, ?_⟩
      · exact ⟨fun hs => absurd hs (by decide), fun hc => absurd hc.1 h18⟩
      · exact ⟨fun _ => hlt18, fun _ => rfl⟩

/-- **C1.**  A LaneSummary row is in the consolidation-opportunity set
(label "Convert to Consolidation") iff it is a LaneSummary row with
`shipment_type = "Carriers LCL"` and `avg_weekly_volume ≥ 18` (inclusive at
18), and in the co-load-opportunity set (label "Convert to Co-load") iff it
has `shipment_type = "LCL"` and `avg_weekly_volume < 18`; a row matching
neither predicate is in neither set but remains in LaneSummary. -/
theorem C1_opportunity_classification (df : List Rec) (r : LaneRow) :
    (r ∈ consolidation_opportunities df ↔
      r ∈ lane_summary df ∧ r.shipmentType = "Carriers LCL" ∧
        18 ≤ r.avgWeeklyVolume) ∧
    (r ∈ coload_opportunities df ↔
      r ∈ lane_summary df ∧ r.shipmentType = "LCL" ∧ r.avgWeeklyVolume < 18) := by
  constructor
  · rw [consolidation_opportunities, mem_sort_values_desc, List.mem_filter]
    simp only [consolPred, Bool.and_eq_true, decide_eq_true_eq, and_assoc,
      ← Frac.le_def]
  · rw [coload_opportunities, mem_sort_values_desc, List.mem_filter]
    simp only [coloadPred, Bool.and_eq_true, decide_eq_true_eq, and_assoc,
      ← Frac.lt_def]

/-- **C3.**  Each weekly LCL volume row is labelled "40ft Container" iff its
summed volume is ≥ 45, "20ft Container" iff it is in [18, 45), and
"Combine Shipments" iff it is < 18; at the boundaries, volume exactly 45
gives "40ft Container", 44.999 and exactly 18 give "20ft Container", and
17.999 gives "Combine Shipments". -/
theorem C3_weekly_container_sizing (df : List Rec) (e : WeeklyRow)
    (he : e ∈ weekly_vol df) :
    ((e.opportunity = "40ft Container" ↔ 45 ≤ e.volume) ∧
     (e.opportunity = "20ft Container" ↔ 18 ≤ e.volume ∧ e.volume < 45) ∧
     (e.opportunity = "Combine Shipments" ↔ e.volume < 18)) ∧
    container_label 45 = "40ft Container" ∧
    container_label (Frac.mkq 44999 1000) = "20ft Container" ∧
    container_label 18 = "20ft Container" ∧
    container_label (Frac.mkq 17999 1000) = "Combine Shipments" := by
  refine ⟨?_, by decide, by decide, by decide, by decide⟩
  rw [weekly_vol, weekly_vol_of] at he
  obtain ⟨g, _, rfl⟩ := List.mem_map.mp he
  exact container_label_iff _

def c3wRow : Rec :=
  { POL := "A", POD := "P", ETS := some 19723, ETA := none, ATA := none,
    shipmentType := "LCL", movement := "Gateway", volume := 45 }

def c3wOut : WeeklyRow :=
  { POL := "A", POD := "P", week := 1, volume := 45, opportunity := "40ft Container" }

/-- Witness for C3: a single LCL record of exactly 45 cbm in ISO week 1
produces the weekly row labelled "40ft Container". -/
theorem C3_witness :
    c3wOut ∈ weekly_vol [c3wRow] ∧
    (c3wOut.opportunity = "40ft Container" ↔ 45 ≤ c3wOut.volume) ∧
    container_label (Frac.mkq 44999 1000) = "20ft Container" :=
  ⟨by decide, (C3_weekly_container_sizing [c3wRow] c3wOut (by decide)).1.1,
    (C3_weekly_container_sizing [c3wRow] c3wOut (by decide)).2.2.1⟩

/-- **C7.**  On the empty dataset every engine computation completes: all
aggregate tables are empty and all scalar metrics are zero or undefined
(`none`), never a failure. -/
theorem C7_empty_input :
    lane_summary [] = [] ∧
    consolidation_opportunities [] = [] ∧
    coload_opportunities [] = [] ∧
    (consolidation_opportunities []).length = 0 ∧
    (coload_opportunities []).length = 0 ∧
    total_volume_impact [] = 0 ∧
    consol_data [] = [] ∧
    weekly_vol [] = [] ∧
    total_volume [] = 0 ∧
    potential_20ft [] = 0 ∧
    potential_40ft [] = 0 ∧
    movement_data [] = [] ∧
    monthly_util [] = [] ∧
    gateway_pct [] = none ∧
    cfs_pct [] = none ∧
    transit_gap [] = [] ∧
    avg_transit [] = none ∧
    min_transit [] = none ∧
    max_transit [] = none := by
  decide

/-- **C10.**  The engine's outputs do not depend on the date-range-granularity
selection: two runs that differ only in the selected granularity produce
identical outputs (the selection is read but never used). -/
theorem C10_granularity_ignored (g1 g2 : String) (df : List Rec) :
    engineRun g1 df = engineRun g2 df := rfl

def c6Row : Rec :=
  { POL := "A", POD := "P", ETS := some 19723, ETA := none, ATA := none,
    shipmentType := "LCL", movement := "Gateway", volume := 0 }

/-- **C6** (code evaluated at the failing input).  When the LCL movement
volumes total zero — the empty dataset, or a dataset whose only LCL volume
is 0 — the code divides `0.0 / 0.0`, producing the float `NaN` (modelled
`none`), which is silently passed to presentation as `"nan%"`.  The result
is not reported as 0%, but no distinct undefined marker other than the
silently computed `NaN` exists. -/
theorem C6_zero_total_nan :
    movement_total [] = 0 ∧ gateway_pct [] = none ∧ cfs_pct [] = none ∧
    movement_total [c6Row] = 0 ∧ movement_data [c6Row] = [("Gateway", 0, 1)] ∧
    gateway_pct [c6Row] = none ∧ cfs_pct [c6Row] = none ∧
    gateway_pct [c6Row] ≠ some 0 ∧ cfs_pct [c6Row] ≠ some 0 := by
  decide

/-! ## Sums over groups versus sums over rows -/

theorem sum_ite_key {K M : Type} [DecidableEq K] [AddCommMonoid M] (c : K) (x : M)
    (ks : List K) (hnd : ks.Nodup) :
    (ks.map (fun k => if c = k then x else 0)).sum = if c ∈ ks then x else 0 := by
  induction ks with
  | nil => simp
  | cons k t ih =>
    rcases List.nodup_cons.mp hnd with ⟨hk, ht⟩
    by_cases hc : c = k
    · subst hc
      simp [ih ht, hk]
    · simp [hc, ih ht]

theorem sum_over_keys {α K M : Type} [DecidableEq K] [AddCommMonoid M]
    (key : α → K) (v : α → M) (q : K → Bool) (l : List α) (ks : List K)
    (hnd : ks.Nodup) (hcov : ∀ a ∈ l, key a ∈ ks) :
    ((ks.filter q).map
        (fun k => ((l.filter (fun a => decide (key a = k))).map v).sum)).sum =
      ((l.filter (fun a => q (key a))).map v).sum := by
  induction l with
  | nil =>
    simp only [List.filter_nil, List.map_nil, List.sum_nil]
    apply List.sum_eq_zero
    intro x hx
    obtain ⟨k, _, rfl⟩ := List.mem_map.mp hx
    simp
  | cons a t ih =>
    have hcovt : ∀ b ∈ t, key b ∈ ks := fun b hb => hcov b (List.mem_cons_of_mem a hb)
    have hmem : key a ∈ ks := hcov a (List.mem_cons_self a t)
    have hinner : ∀ k : K,
        ((List.filter (fun x => decide (key x = k)) (a :: t)).map v).sum =
          (if key a = k then v a else 0) +
            ((List.filter (fun x => decide (key x = k)) t).map v).sum := by
      intro k
      rw [List.filter_cons]
      by_cases h : key a = k
      · simp [h]
      · simp [h]
    rw [List.map_congr_left (fun k _ => hinner k), List.sum_map_add,
      sum_ite_key _ _ _ (hnd.filter q), ih hcovt, List.filter_cons]
    by_cases hq : q (key a) = true
    · rw [if_pos (List.mem_filter.mpr ⟨hmem, hq⟩), if_pos hq]
      simp
    · rw [if_neg (fun hmf => hq (List.mem_filter.mp hmf).2), if_neg hq]
      simp

theorem groupBy_filter_sum {α K M : Type} [DecidableEq K] [AddCommMonoid M]
    (key : α → K) (le : K → K → Bool) (v : α → M) (q : K → Bool) (l : List α) :
    (((groupBy key le l).filter (fun g => q g.1)).map
        (fun g => (g.2.map v).sum)).sum =
      ((l.filter (fun a => q (key a))).map v).sum := by
  unfold groupBy
  rw [List.filter_map, List.map_map]
  simp only [Function.comp_def]
  have hperm :
      ((List.insertionSort (fun a b => le a b = true)
          ((l.map key).dedup)).filter q).Perm (((l.map key).dedup).filter q) :=
    (List.perm_insertionSort _ _).filter q
  rw [(hperm.map _).sum_eq]
  exact sum_over_keys key v q l _ (List.nodup_dedup _)
    (fun a ha => List.mem_dedup.mpr (List.mem_map_of_mem key ha))

theorem groupBy_sum {α K M : Type} [DecidableEq K] [AddCommMonoid M]
    (key : α → K) (le : K → K → Bool) (v : α → M) (l : List α) :
    (((groupBy key le l).map (fun g => (g.2.map v).sum)).sum) = (l.map v).sum := by
  have h := groupBy_filter_sum key le v (fun _ => true) l
  simpa [List.filter_true] using h

/-! ## C5: movement percentages -/

/-- Spec 4.3 step 2: total volume across all movements (the LCL restriction). -/
def spec_lcl_volume (df : List Rec) : Frac := ((df.filter isLCL).map Rec.volume).sum

/-- Spec 4.3 step 2: summed volume of LCL rows whose movement label contains
`"Gateway"`. -/
def spec_gateway_volume (df : List Rec) : Frac :=
  ((df.filter (fun r => strContainsSub r.movement "Gateway" && isLCL r)).map
    Rec.volume).sum

/-- Spec 4.3 step 2: summed volume of LCL rows whose movement label contains
`"CFS"`. -/
def spec_cfs_volume (df : List Rec) : Frac :=
  ((df.filter (fun r => strContainsSub r.movement "CFS" && isLCL r)).map
    Rec.volume).sum

/-- **C5.**  On the LCL restriction grouped by movement, `gateway_pct` is the
ratio of the volume of movements containing "Gateway" to the total volume,
times 100, and `cfs_pct` the analogous independent ratio for "CFS". -/
theorem C5_movement_percentages (df : List Rec) (h : movement_total df ≠ 0) :
    movement_total df = spec_lcl_volume df ∧
    gateway_pct df = some (spec_gateway_volume df / spec_lcl_volume df * 100) ∧
    cfs_pct df = some (spec_cfs_volume df / spec_lcl_volume df * 100) := by
  have htot : movement_total df = spec_lcl_volume df := by
    unfold movement_total movement_data movement_data_of spec_lcl_volume
    rw [List.map_map]
    simp only [Function.comp_def]
    exact groupBy_sum _ _ _ _
  have hgw : (((movement_data df).filter
      (fun g => strContainsSub g.1 "Gateway")).map (fun g => g.2.1)).sum =
        spec_gateway_volume df := by
    unfold movement_data movement_data_of spec_gateway_volume
    rw [List.filter_map, List.map_map]
    simp only [Function.comp_def]
    rw [groupBy_filter_sum Rec.movement strLe Rec.volume
      (fun m => strContainsSub m "Gateway") (df.filter isLCL), List.filter_filter]
  have hcfs : (((movement_data df).filter
      (fun g => strContainsSub g.1 "CFS")).map (fun g => g.2.1)).sum =
        spec_cfs_volume df := by
    unfold movement_data movement_data_of spec_cfs_volume
    rw [List.filter_map, List.map_map]
    simp only [Function.comp_def]
    rw [groupBy_filter_sum Rec.movement strLe Rec.volume
      (fun m => strContainsSub m "CFS") (df.filter isLCL), List.filter_filter]
  refine ⟨htot, ?_, ?_⟩
  · rw [gateway_pct, if_neg h, hgw, htot]
  · rw [cfs_pct, if_neg h, hcfs, htot]

def c5Row1 : Rec :=
  { POL := "A", POD := "P", ETS := some 19723, ETA := none, ATA := none,
    shipmentType := "LCL", movement := "Gateway A", volume := 60 }

def c5Row2 : Rec :=
  { POL := "A", POD := "P", ETS := some 19723, ETA := none, ATA := none,
    shipmentType := "LCL", movement := "CFS Hub", volume := 40 }

/-- Witness for C5: movements {"Gateway A": 60 cbm, "CFS Hub": 40 cbm} give
`gateway_pct = 60.0` and `cfs_pct = 40.0`. -/
theorem C5_witness :
    movement_total [c5Row1, c5Row2] ≠ 0 ∧
    gateway_pct [c5Row1, c5Row2] =
      some (spec_gateway_volume [c5Row1, c5Row2] /
        spec_lcl_volume [c5Row1, c5Row2] * 100) ∧
    gateway_pct [c5Row1, c5Row2] = some 60 ∧
    cfs_pct [c5Row1, c5Row2] = some 40 :=
  ⟨by decide, (C5_movement_percentages [c5Row1, c5Row2] (by decide)).2.1,
    by decide, by decide⟩

/-! ## C4: transit-time statistics -/

/-- Spec 4.1/4.4: the defined transit durations `(ata − ets).days` of the
records on route `(pol, pod)`: a record missing `ets` or `ata` has no
transit duration and is excluded; negative durations are kept unmodified. -/
def spec_route_transits (df : List Rec) (pol pod : String) : List ℤ :=
  (df.filter (fun r => decide (r.POL = pol ∧ r.POD = pod))).filterMap
    (fun r =>
      match r.ATA, r.ETS with
      | some a, some e => some (a - e)
      | _, _ => none)

/-- Spec 4.4 step 3: the defined transit durations of all records. -/
def spec_transits (df : List Rec) : List ℤ :=
  df.filterMap
    (fun r =>
      match r.ATA, r.ETS with
      | some a, some e => some (a - e)
      | _, _ => none)

/-- **C4.**  Per-route and global transit statistics are computed over exactly
the records whose transit duration is defined (missing `ets`/`ata` excluded,
not coerced to zero), with negative durations included unmodified. -/
theorem C4_transit_statistics (df : List Rec) (e : TransitRow)
    (he : e ∈ transit_gap df) :
    (e.mean = meanI (spec_route_transits df e.POL e.POD) ∧
     e.min = listMinI (spec_route_transits df e.POL e.POD) ∧
     e.max = listMaxI (spec_route_transits df e.POL e.POD)) ∧
    avg_transit df = meanI (spec_transits df) ∧
    min_transit df = listMinI (spec_transits df) ∧
    max_transit df = listMaxI (spec_transits df) := by
  have hglob : (withTransit df).filterMap Rec.transitDays = spec_transits df := by
    unfold withTransit spec_transits
    rw [List.filterMap_map]
    rfl
  refine ⟨?_, ?_, ?_, ?_⟩
  · rw [transit_gap, transit_gap_of] at he
    obtain ⟨g, hg, rfl⟩ := List.mem_map.mp he
    rw [groupBy] at hg
    obtain ⟨k, _, rfl⟩ := List.mem_map.mp hg
    have hvs : ((withTransit df).filter
        (fun r => decide ((r.POL, r.POD) = k))).filterMap Rec.transitDays =
          spec_route_transits df k.1 k.2 := by
      unfold withTransit spec_route_transits
      rw [List.filter_map, List.filterMap_map]
      simp only [Function.comp_def]
      have hp : df.filter
          (fun r => decide (((assignTransit r).POL, (assignTransit r).POD) = k)) =
            df.filter (fun r => decide (r.POL = k.1 ∧ r.POD = k.2)) :=
        List.filter_congr (fun r _ => decide_eq_decide.mpr Prod.ext_iff)
      rw [hp]
      rfl
    exact ⟨congrArg meanI hvs, congrArg listMinI hvs, congrArg listMaxI hvs⟩
  · rw [avg_transit, hglob]
  · rw [min_transit, hglob]
  · rw [max_transit, hglob]

def c4Row1 : Rec :=
  { POL := "A", POD := "B", ETS := some 19723, ETA := none, ATA := some 19732,
    shipmentType := "LCL", movement := "Gateway", volume := 1 }

def c4Row2 : Rec :=
  { POL := "A", POD := "B", ETS := some 19727, ETA := none, ATA := some 19725,
    shipmentType := "LCL", movement := "Gateway", volume := 1 }

def c4Row3 : Rec :=
  { POL := "A", POD := "B", ETS := some 19727, ETA := none, ATA := none,
    shipmentType := "LCL", movement := "Gateway", volume := 1 }

def c4Out : TransitRow :=
  { POL := "A", POD := "B", mean := some (Frac.mkq 7 2), min := some (-2),
    max := some 9 }

/-- Witness for C4: `ets=2024-01-01, ata=2024-01-10` (+9) and
`ets=2024-01-05, ata=2024-01-03` (−2) on one route, plus a record with a
missing `ata` (excluded): mean 3.5, min −2, max 9. -/
theorem C4_witness :
    c4Out ∈ transit_gap [c4Row1, c4Row2, c4Row3] ∧
    c4Out.mean = meanI (spec_route_transits [c4Row1, c4Row2, c4Row3]
      c4Out.POL c4Out.POD) ∧
    spec_route_transits [c4Row1, c4Row2, c4Row3] "A" "B" = [9, -2] ∧
    meanI [9, -2] = some (Frac.mkq 7 2) ∧
    listMinI [9, -2] = some (-2) ∧ listMaxI [9, -2] = some 9 :=
  ⟨by decide,
    (C4_transit_statistics [c4Row1, c4Row2, c4Row3] c4Out (by decide)).1.1,
    by decide, by decide, by decide, by decide⟩

/-! ## C8: ordering of the opportunity sets -/

/-- Modelled from the spec's words for C8: a *stable* descending sort by
`avg_weekly_volume` — rows with equal keys keep their prior relative order
(`insertionSort` with a ≥-comparator is stable). -/
def spec_stable_sort_desc {α : Type} (val : α → Frac) (l : List α) : List α :=
  List.insertionSort (fun a b => Frac.ble (val b) (val a) = true) l

theorem sorted_sort_values_desc {α : Type} (val : α → Frac) (l : List α) :
    (sort_values_desc val l).Pairwise (fun a b => val b ≤ val a) := by
  unfold sort_values_desc
  rw [List.pairwise_reverse]
  haveI : IsTotal α (fun a b => Frac.ble (val a) (val b) = true) :=
    ⟨fun a b => Frac.ble_total _ _⟩
  haveI : IsTrans α (fun a b => Frac.ble (val a) (val b) = true) :=
    ⟨fun _ _ _ => Frac.ble_trans⟩
  exact List.sorted_insertionSort (fun a b => Frac.ble (val a) (val b) = true) l

theorem perm_sort_values_desc {α : Type} (val : α → Frac) (l : List α) :
    (sort_values_desc val l).Perm l :=
  (List.reverse_perm _).trans (List.perm_insertionSort _ _)

/-- **C8 (amended).**  Each opportunity set is a permutation of the
LaneSummary rows passing the corresponding filter, sorted in descending
order of `avg_weekly_volume`; the sort is *not* stable — rows with equal
`avg_weekly_volume` need not preserve their prior relative order (pandas
argsorts ascending and reverses the indexer for `ascending=False`). -/
theorem C8_descending_sort (df : List Rec) :
    (consolidation_opportunities df).Pairwise
      (fun a b => b.avgWeeklyVolume ≤ a.avgWeeklyVolume) ∧
    (consolidation_opportunities df).Perm
      ((lane_summary df).filter consolPred) ∧
    (coload_opportunities df).Pairwise
      (fun a b => b.avgWeeklyVolume ≤ a.avgWeeklyVolume) ∧
    (coload_opportunities df).Perm ((lane_summary df).filter coloadPred) :=
  ⟨sorted_sort_values_desc _ _, perm_sort_values_desc _ _,
   sorted_sort_values_desc _ _, perm_sort_values_desc _ _⟩

def c8Row1 : Rec :=
  { POL := "A", POD := "P", ETS := some 19723, ETA := none, ATA := none,
    shipmentType := "LCL", movement := "Gateway", volume := 10 }

def c8Row2 : Rec :=
  { POL := "B", POD := "Q", ETS := some 19723, ETA := none, ATA := none,
    shipmentType := "LCL", movement := "Gateway", volume := 10 }

/-- **C8 (counterexample).**  Two co-load lanes with equal
`avg_weekly_volume = 10` appear as A-lane then B-lane in LaneSummary
(groupby's key order) but come out as B-lane then A-lane after
`sort_values(ascending=False)`: the tie's prior relative order is reversed,
so the sort is not the claimed stable descending sort. -/
theorem C8_counterexample :
    ((lane_summary [c8Row1, c8Row2]).filter coloadPred).map LaneRow.POL =
      ["A", "B"] ∧
    (coload_opportunities [c8Row1, c8Row2]).map LaneRow.POL = ["B", "A"] ∧
    coload_opportunities [c8Row1, c8Row2] ≠
      spec_stable_sort_desc LaneRow.avgWeeklyVolume
        ((lane_summary [c8Row1, c8Row2]).filter coloadPred) := by
  decide

/-! ## C2: LaneSummary means and week counts -/

theorem dedup_filter {α : Type} [DecidableEq α] (p : α → Bool) (l : List α) :
    (l.dedup).filter p = (l.filter p).dedup := by
  induction l with
  | nil => simp
  | cons a t ih =>
    by_cases hmem : a ∈ t
    · rw [List.dedup_cons_of_mem hmem, List.filter_cons]
      by_cases hp : p a = true
      · rw [if_pos hp, List.dedup_cons_of_mem (List.mem_filter.mpr ⟨hmem, hp⟩), ih]
      · rw [if_neg hp, ih]
    · rw [List.dedup_cons_of_not_mem hmem, List.filter_cons, List.filter_cons]
      by_cases hp : p a = true
      · rw [if_pos hp, if_pos hp,
          List.dedup_cons_of_not_mem (fun hc => hmem (List.mem_filter.mp hc).1), ih]
      · rw [if_neg hp, if_neg hp, ih]

theorem dedup_map_inj {α β : Type} [DecidableEq α] [DecidableEq β] {f : α → β}
    (hf : Function.Injective f) (l : List α) :
    (l.map f).dedup = (l.dedup).map f := by
  induction l with
  | nil => simp
  | cons a t ih =>
    by_cases hmem : a ∈ t
    · rw [List.map_cons, List.dedup_cons_of_mem (List.mem_map_of_mem f hmem),
        List.dedup_cons_of_mem hmem, ih]
    · rw [List.map_cons, List.dedup_cons_of_not_mem ?_,
        List.dedup_cons_of_not_mem hmem, List.map_cons, ih]
      intro hc
      obtain ⟨b, hb, he⟩ := List.mem_map.mp hc
      exact hmem (hf he ▸ hb)

theorem filterMap_eq_map_getD {α β : Type} (f : α → Option β) (d : β) (l : List α)
    (h : ∀ a ∈ l, (f a).isSome = true) :
    l.filterMap f = l.map (fun a => (f a).getD d) := by
  induction l with
  | nil => rfl
  | cons a t ih =>
    have ha := h a (List.mem_cons_self a t)
    cases hfa : f a with
    | none => rw [hfa] at ha; simp at ha
    | some b =>
      rw [List.filterMap_cons, List.map_cons, hfa,
        ih (fun x hx => h x (List.mem_cons_of_mem a hx))]
      rfl

/-- Spec §3: the records of lane key `(pol, pod, shipment_type)` that carry a
week (a defined `ets`). -/
def spec_key_records (df : List Rec) (pol pod stype : String) : List Rec :=
  df.filter (fun r =>
    decide (r.POL = pol ∧ r.POD = pod ∧ r.shipmentType = stype) && r.ETS.isSome)

/-- Spec §3: the distinct ISO calendar weeks (of `ets`) contributing at least
one record for the key. -/
def spec_weeks (df : List Rec) (pol pod stype : String) : List ℕ :=
  ((spec_key_records df pol pod stype).filterMap
    (fun r => r.ETS.map isoWeekOfDay)).dedup

/-- Spec §3: the per-week sums of `volume_cbm` for the key, one per distinct
week. -/
def spec_weekly_sums (df : List Rec) (pol pod stype : String) : List Frac :=
  (spec_weeks df pol pod stype).map (fun w =>
    (((spec_key_records df pol pod stype).filter
        (fun r => decide (r.ETS.map isoWeekOfDay = some w))).map Rec.volume).sum)

/-- The weekly-sum values that `lane_summary` aggregates for the lane key
`k3` are exactly the per-week volume sums of the records of that key, one
per distinct contributing ISO week. -/
theorem lane_vals_eq (df : List Rec) (k3 : String × String × String) :
    List.map (fun k =>
        (List.map Rec.volume (List.filter (fun r => decide (key4 r = k))
          (List.filter hasWeek (withWeek df)))).sum)
      (List.filter (fun k => decide (key3of k = k3))
        ((List.map key4 (List.filter hasWeek (withWeek df))).dedup)) =
      spec_weekly_sums df k3.1 k3.2.1 k3.2.2 := by
  have hRmap : (withWeek df).filter hasWeek =
      (df.filter (fun r => r.ETS.isSome)).map assignWeek := by
    unfold withWeek
    rw [List.filter_map]
    exact congrArg (List.map assignWeek)
      (List.filter_congr (fun r _ => Option.isSome_map))
  have hpred : ∀ r : Rec,
      (decide (key3of (key4 (assignWeek r)) = k3) && r.ETS.isSome) =
        (decide (r.POL = k3.1 ∧ r.POD = k3.2.1 ∧ r.shipmentType = k3.2.2) &&
          r.ETS.isSome) := fun r => by
    have hiff : key3of (key4 (assignWeek r)) = k3 ↔
        (r.POL = k3.1 ∧ r.POD = k3.2.1 ∧ r.shipmentType = k3.2.2) := by
      simp [key3of, key4, assignWeek, Prod.ext_iff]
    rw [decide_eq_decide.mpr hiff]
  have hmapf : ∀ r ∈ df.filter (fun r =>
      decide (r.POL = k3.1 ∧ r.POD = k3.2.1 ∧ r.shipmentType = k3.2.2) &&
        r.ETS.isSome),
      key4 (assignWeek r) =
        (k3.1, k3.2.1, (r.ETS.map isoWeekOfDay).getD 0, k3.2.2) := by
    intro r hr
    have h3 := of_decide_eq_true ((Bool.and_eq_true _ _).mp
      (List.mem_filter.mp hr).2).1
    simp [key4, assignWeek, h3.1, h3.2.1, h3.2.2]
  rw [hRmap, List.map_map]
  simp only [Function.comp_def]
  rw [dedup_filter, List.filter_map]
  simp only [Function.comp_def]
  rw [List.filter_filter]
  rw [List.filter_congr (fun r _ => hpred r)]
  rw [List.map_congr_left hmapf]
  rw [show (fun a : Rec => ((k3.1 : String), k3.2.1,
        (Option.map isoWeekOfDay a.ETS).getD 0, k3.2.2)) =
      ((fun w : ℕ => ((k3.1 : String), k3.2.1, w, k3.2.2)) ∘
        (fun a : Rec => (Option.map isoWeekOfDay a.ETS).getD 0)) from rfl]
  rw [← List.map_map]
  rw [dedup_map_inj (f := fun w : ℕ => ((k3.1 : String), k3.2.1, w, k3.2.2))
    (fun a b h => by simpa using congrArg (fun t => t.2.2.1) h)]
  rw [List.map_map]
  have hweeks : ((df.filter (fun r =>
      decide (r.POL = k3.1 ∧ r.POD = k3.2.1 ∧ r.shipmentType = k3.2.2) &&
        r.ETS.isSome)).map
          (fun a => (Option.map isoWeekOfDay a.ETS).getD 0)).dedup =
      spec_weeks df k3.1 k3.2.1 k3.2.2 := by
    unfold spec_weeks spec_key_records
    rw [filterMap_eq_map_getD _ 0 _ (fun r hr => by
      have hS := ((Bool.and_eq_true _ _).mp (List.mem_filter.mp hr).2).2
      simpa [Option.isSome_map] using hS)]
  rw [hweeks]
  unfold spec_weekly_sums
  refine List.map_congr_left ?_
  intro w hw
  simp only [Function.comp_def]
  rw [List.filter_map, List.map_map]
  simp only [Function.comp_def]
  rw [List.filter_filter]
  unfold spec_key_records
  rw [List.filter_filter]
  have hpt : ∀ r : Rec,
      (decide (key4 (assignWeek r) = (k3.1, k3.2.1, w, k3.2.2)) && r.ETS.isSome) =
      (decide (Option.map isoWeekOfDay r.ETS = some w) &&
        (decide (r.POL = k3.1 ∧ r.POD = k3.2.1 ∧ r.shipmentType = k3.2.2) &&
          r.ETS.isSome)) := by
    intro r
    cases hx : r.ETS with
    | none => simp [key4, assignWeek, hx]
    | some v =>
      by_cases h1 : r.POL = k3.1 <;> by_cases h2 : r.POD = k3.2.1 <;>
        by_cases h3 : r.shipmentType = k3.2.2 <;> by_cases h4 : isoWeekOfDay v = w <;>
        simp [key4, assignWeek, hx, Prod.ext_iff, h1, h2, h3, h4]
  rw [List.filter_congr (fun r _ => hpt r)]
  exact congrArg List.sum (List.map_congr_left (fun r _ => rfl))

/-- **C2.**  Every LaneSummary row's `avg_weekly_volume` is the arithmetic
mean of the per-week sums of `volume_cbm` for its key `(pol, pod,
shipment_type)` (weeks grouped by the ISO calendar week of `ets`), and its
`weeks_with_shipments` is the number of distinct weeks contributing at least
one record for that key. -/
theorem C2_lane_summary_aggregation (df : List Rec) (e : LaneRow)
    (he : e ∈ lane_summary df) :
    e.avgWeeklyVolume =
      (spec_weekly_sums df e.POL e.POD e.shipmentType).sum /
        Frac.ofInt (spec_weekly_sums df e.POL e.POD e.shipmentType).length ∧
    e.weeksWithShipments = (spec_weeks df e.POL e.POD e.shipmentType).length := by
  rw [lane_summary, lane_summary_of] at he
  obtain ⟨g, hg, rfl⟩ := List.mem_map.mp he
  rw [groupBy] at hg
  obtain ⟨k3, _, rfl⟩ := List.mem_map.mp hg
  have hperm : ((List.filter (fun r => decide (key3of r.1 = k3))
        (lane_analysis_of (withWeek df))).map Prod.snd).Perm
      (spec_weekly_sums df k3.1 k3.2.1 k3.2.2) := by
    unfold lane_analysis_of
    rw [List.filter_map, List.map_map]
    simp only [Function.comp_def]
    unfold groupBy
    rw [List.filter_map, List.map_map]
    simp only [Function.comp_def]
    refine (((List.perm_insertionSort _ _).filter _).map _).trans ?_
    rw [lane_vals_eq df k3]
  have hlen : (List.filter (fun r => decide (key3of r.1 = k3))
      (lane_analysis_of (withWeek df))).length =
        (spec_weeks df k3.1 k3.2.1 k3.2.2).length := by
    rw [← List.length_map (List.filter (fun r => decide (key3of r.1 = k3))
      (lane_analysis_of (withWeek df))) Prod.snd, hperm.length_eq,
      spec_weekly_sums, List.length_map]
  constructor
  · show (List.map Prod.snd (List.filter (fun r => decide (key3of r.1 = k3))
        (lane_analysis_of (withWeek df)))).sum /
      Frac.ofInt (List.filter (fun r => decide (key3of r.1 = k3))
        (lane_analysis_of (withWeek df))).length =
      (spec_weekly_sums df k3.1 k3.2.1 k3.2.2).sum /
        Frac.ofInt (spec_weekly_sums df k3.1 k3.2.1 k3.2.2).length
    rw [hperm.sum_eq, hlen]
    unfold spec_weekly_sums
    rw [List.length_map]
  · exact hlen

def c2w1 : Rec :=
  { POL := "A", POD := "P", ETS := some 19723, ETA := none, ATA := none,
    shipmentType := "LCL", movement := "Gateway", volume := 10 }

def c2w2 : Rec :=
  { POL := "A", POD := "P", ETS := some 19730, ETA := none, ATA := none,
    shipmentType := "LCL", movement := "Gateway", volume := 20 }

def c2wOut : LaneRow :=
  { POL := "A", POD := "P", shipmentType := "LCL", avgWeeklyVolume := 15,
    weeksWithShipments := 2 }

/-- Witness for C2: one lane with 10 cbm in ISO week 1 and 20 cbm in ISO
week 2 yields `avg_weekly_volume = 15` and `weeks_with_shipments = 2`. -/
theorem C2_witness :
    c2wOut ∈ lane_summary [c2w1, c2w2] ∧
    (c2wOut.avgWeeklyVolume =
      (spec_weekly_sums [c2w1, c2w2] c2wOut.POL c2wOut.POD
          c2wOut.shipmentType).sum /
        Frac.ofInt (spec_weekly_sums [c2w1, c2w2] c2wOut.POL c2wOut.POD
          c2wOut.shipmentType).length ∧
     c2wOut.weeksWithShipments =
      (spec_weeks [c2w1, c2w2] c2wOut.POL c2wOut.POD
        c2wOut.shipmentType).length) ∧
    spec_weekly_sums [c2w1, c2w2] "A" "P" "LCL" = [10, 20] ∧
    spec_weeks [c2w1, c2w2] "A" "P" "LCL" = [1, 2] ∧
    c2wOut.avgWeeklyVolume = 15 :=
  ⟨by decide, C2_lane_summary_aggregation [c2w1, c2w2] c2wOut (by decide),
    by decide, by decide, by decide⟩

/-! ## C9: determinism of the full engine run

The column assignments are overwrites recomputed from the never-mutated base
fields, so they collapse and commute; every aggregation then reads only
base-field projections of the prepared frame. -/

theorem groupBy_map {α β K : Type} [DecidableEq K] (key : β → K) (le : K → K → Bool)
    (f : α → β) (l : List α) :
    groupBy key le (l.map f) =
      (groupBy (fun a => key (f a)) le l).map (fun g => (g.1, g.2.map f)) := by
  unfold groupBy
  rw [List.map_map, List.map_map]
  simp only [Function.comp_def]
  refine List.map_congr_left ?_
  intro k _
  rw [List.filter_map]
  simp only [Function.comp_def]

theorem lane_analysis_of_map (φ : Rec → Rec) (df : List Rec) :
    lane_analysis_of (df.map φ) =
      (groupBy (fun r => key4 (φ r)) le4
        (df.filter (fun r => hasWeek (φ r)))).map
          (fun g => (g.1, (g.2.map (fun r => (φ r).volume)).sum)) := by
  unfold lane_analysis_of
  rw [List.filter_map, groupBy_map]
  simp only [List.map_map, Function.comp_def]

theorem consol_data_of_map (φ : Rec → Rec) (df : List Rec) :
    consol_data_of (df.map φ) =
      (groupBy (fun r => (φ r).shipmentType) strLe df).map
        (fun g => (g.1, (g.2.map (fun r => (φ r).volume)).sum, g.2.length)) := by
  unfold consol_data_of
  rw [groupBy_map]
  simp only [List.map_map, Function.comp_def, List.length_map]

theorem weekly_vol_of_map (φ : Rec → Rec) (df : List Rec) :
    weekly_vol_of (df.map φ) =
      (groupBy (fun r => keyW (φ r)) leW3
        ((df.filter (fun r => isLCL (φ r))).filter (fun r => hasWeek (φ r)))).map
        (fun g =>
          { POL := g.1.1, POD := g.1.2.1, week := g.1.2.2,
            volume := (g.2.map (fun r => (φ r).volume)).sum,
            opportunity :=
              container_label ((g.2.map (fun r => (φ r).volume)).sum) }) := by
  unfold weekly_vol_of
  rw [List.filter_map, List.filter_map, groupBy_map]
  simp only [List.map_map, Function.comp_def]

theorem movement_data_of_map (φ : Rec → Rec) (df : List Rec) :
    movement_data_of (df.map φ) =
      (groupBy (fun r => (φ r).movement) strLe
        (df.filter (fun r => isLCL (φ r)))).map
        (fun g => (g.1, (g.2.map (fun r => (φ r).volume)).sum, g.2.length)) := by
  unfold movement_data_of
  rw [List.filter_map, groupBy_map]
  simp only [List.map_map, Function.comp_def, List.length_map]

theorem monthly_util_of_map (φ : Rec → Rec) (df : List Rec) :
    monthly_util_of (df.map φ) =
      (groupBy (fun r => keyM (φ r)) leMonth
        ((df.filter (fun r => isLCL (φ r))).filter
          (fun r => hasMonth (φ r)))).map
        (fun g => (g.1, (g.2.map (fun r => (φ r).volume)).sum, g.2.length)) := by
  unfold monthly_util_of
  rw [List.filter_map, List.filter_map, groupBy_map]
  simp only [List.map_map, Function.comp_def, List.length_map]

theorem transit_gap_of_map (φ : Rec → Rec) (df : List Rec) :
    transit_gap_of (df.map φ) =
      (groupBy (fun r => ((φ r).POL, (φ r).POD)) le2 df).map
        (fun g =>
          { POL := g.1.1, POD := g.1.2,
            mean := meanI (g.2.filterMap (fun r => (φ r).transitDays)),
            min := listMinI (g.2.filterMap (fun r => (φ r).transitDays)),
            max := listMaxI (g.2.filterMap (fun r => (φ r).transitDays)) }) := by
  unfold transit_gap_of
  rw [groupBy_map]
  simp only [List.map_map, List.filterMap_map, Function.comp_def]

theorem assignWeek_assignWeek (r : Rec) :
    assignWeek (assignWeek r) = assignWeek r := rfl

theorem assignWeek_assignMonth (r : Rec) :
    assignWeek (assignMonth r) = assignMonth (assignWeek r) := rfl

theorem assignWeek_assignTransit (r : Rec) :
    assignWeek (assignTransit r) = assignTransit (assignWeek r) := rfl

theorem assignMonth_assignMonth (r : Rec) :
    assignMonth (assignMonth r) = assignMonth r := rfl

theorem assignMonth_assignTransit (r : Rec) :
    assignMonth (assignTransit r) = assignTransit (assignMonth r) := rfl

theorem assignTransit_assignTransit (r : Rec) :
    assignTransit (assignTransit r) = assignTransit r := rfl

/-- **C9.**  The engine is deterministic with no hidden mutable state that
influences results across runs: running the full pipeline a second time —
even on the shared dataframe as mutated by the first run (the derived
`Week`/`Month`/`Transit Days` columns added in place) — produces exactly the
same tables and scalar metrics as the first run. -/
theorem C9_engine_idempotent (g : String) (df : List Rec) :
    (engineRun g ((engineRun g df).2)).1 = (engineRun g df).1 := by
  have hs1 : withWeek (withTransit (withMonth (withWeek (withWeek df)))) =
      df.map (fun r => assignTransit (assignMonth (assignWeek r))) := by
    unfold withWeek withMonth withTransit
    simp only [List.map_map, Function.comp_def, assignWeek_assignWeek,
      assignWeek_assignMonth, assignWeek_assignTransit, assignMonth_assignMonth,
      assignMonth_assignTransit, assignTransit_assignTransit]
  have hs2 : withWeek (withWeek (withTransit (withMonth (withWeek
      (withWeek df))))) =
      df.map (fun r => assignTransit (assignMonth (assignWeek r))) := by
    unfold withWeek withMonth withTransit
    simp only [List.map_map, Function.comp_def, assignWeek_assignWeek,
      assignWeek_assignMonth, assignWeek_assignTransit, assignMonth_assignMonth,
      assignMonth_assignTransit, assignTransit_assignTransit]
  have hs3 : withMonth (withWeek (withWeek (withTransit (withMonth (withWeek
      (withWeek df)))))) =
      df.map (fun r => assignTransit (assignMonth (assignWeek r))) := by
    unfold withWeek withMonth withTransit
    simp only [List.map_map, Function.comp_def, assignWeek_assignWeek,
      assignWeek_assignMonth, assignWeek_assignTransit, assignMonth_assignMonth,
      assignMonth_assignTransit, assignTransit_assignTransit]
  have hs4 : withTransit (withMonth (withWeek (withWeek (withTransit
      (withMonth (withWeek (withWeek df))))))) =
      df.map (fun r => assignTransit (assignMonth (assignWeek r))) := by
    unfold withWeek withMonth withTransit
    simp only [List.map_map, Function.comp_def, assignWeek_assignWeek,
      assignWeek_assignMonth, assignWeek_assignTransit, assignMonth_assignMonth,
      assignMonth_assignTransit, assignTransit_assignTransit]
  have hr1 : withWeek df = df.map assignWeek := rfl
  have hr2 : withWeek (withWeek df) = df.map assignWeek := by
    unfold withWeek
    simp only [List.map_map, Function.comp_def, assignWeek_assignWeek]
  have hr3 : withMonth (withWeek (withWeek df)) =
      df.map (fun r => assignMonth (assignWeek r)) := by
    unfold withWeek withMonth
    simp only [List.map_map, Function.comp_def, assignWeek_assignWeek]
  have hr4 : withTransit (withMonth (withWeek (withWeek df))) =
      df.map (fun r => assignTransit (assignMonth (assignWeek r))) := by
    unfold withWeek withMonth withTransit
    simp only [List.map_map, Function.comp_def, assignWeek_assignWeek]
  have hls : lane_summary_of (withWeek (withTransit (withMonth (withWeek
      (withWeek df))))) = lane_summary_of (withWeek df) := by
    unfold lane_summary_of
    rw [hs1, hr1, lane_analysis_of_map, lane_analysis_of_map]
    rfl
  have hcd : consol_data_of (withWeek (withTransit (withMonth (withWeek
      (withWeek df))))) = consol_data_of (withWeek df) := by
    rw [hs1, hr1, consol_data_of_map, consol_data_of_map]
    rfl
  have hwv : weekly_vol_of (withWeek (withWeek (withTransit (withMonth
      (withWeek (withWeek df)))))) =
        weekly_vol_of (withWeek (withWeek df)) := by
    rw [hs2, hr2, weekly_vol_of_map, weekly_vol_of_map]
    rfl
  have hmd : movement_data_of (withWeek (withWeek (withTransit (withMonth
      (withWeek (withWeek df)))))) =
        movement_data_of (withWeek (withWeek df)) := by
    rw [hs2, hr2, movement_data_of_map, movement_data_of_map]
    rfl
  have hmu : monthly_util_of (withMonth (withWeek (withWeek (withTransit
      (withMonth (withWeek (withWeek df))))))) =
        monthly_util_of (withMonth (withWeek (withWeek df))) := by
    rw [hs3, hr3, monthly_util_of_map, monthly_util_of_map]
    rfl
  have htg : transit_gap_of (withTransit (withMonth (withWeek (withWeek
      (withTransit (withMonth (withWeek (withWeek df)))))))) =
        transit_gap_of (withTransit (withMonth (withWeek (withWeek df)))) := by
    rw [hs4, hr4]
  have hvs : (withTransit (withMonth (withWeek (withWeek (withTransit
      (withMonth (withWeek (withWeek df)))))))).filterMap Rec.transitDays =
        (withTransit (withMonth (withWeek (withWeek df)))).filterMap
          Rec.transitDays := by
    rw [hs4, hr4]
  show (engineRun g (withTransit (withMonth (withWeek (withWeek df))))).1 =
    (engineRun g df).1
  unfold engineRun
  simp only [EngineOut.mk.injEq]
  exact ⟨hls, by rw [hls], by rw [hls], by rw [hls], by rw [hls], by rw [hls],
    hcd, hwv, by rw [hwv], by rw [hwv], by rw [hwv], hmd, hmu,
    by rw [hmd], by rw [hmd], htg, by rw [hvs], by rw [hvs], by rw [hvs]⟩
